import Mathlib

/-!
Verification of the moelog formatter/level/rollover subsystem
(source: moelog/main.py).

The embedding models:
- percent-style format templates as lists of tokens (literal text or a
  field reference), mirroring the template strings the code builds;
- the external moecolor FormatText primitive as ANSI SGR wrapping
  (an escape code before the text, a reset code after it);
- log records as a snapshot of the attributes the formatters read
  (logger name, function name, line number, level name, message,
  formatted time, creation instant, dynamic attributes);
- Python dict semantics as insertion-ordered association lists where
  assignment to an existing key replaces the value in place;
- the process-wide logging module state touched by addLoggingLevel;
- the on-disk state consulted by the rollover path selection.
-/

/-- A piece of a percent-style format template: literal text, or a field
reference written as a name and a conversion character (s or d). -/
inductive Tok where
  | lit : String → Tok
  | fld : String → Char → Tok
deriving DecidableEq

/-- The ANSI escape character, first byte of a color code. -/
def ansiEsc : Char := '\x1b'

/-- Model of the external moecolor FormatText(text, color).text primitive:
the text is wrapped in an ANSI SGR color sequence followed by a reset.
The precise code bytes chosen by moecolor do not matter to the claims;
what matters is that the wrapped text gains escape sequences. -/
def ftToks (color : String) (body : List Tok) : List Tok :=
  Tok.lit ("\x1b[" ++ color ++ "m") :: body ++ [Tok.lit "\x1b[0m"]

/-- Render a template against an attribute valuation, as Python
percent-formatting of a mapping does: a missing attribute makes the
whole substitution fail (KeyError), modeled as none. -/
def renderToks (toks : List Tok) (f : String → Option String) : Option String :=
  match toks with
  | [] => some ""
  | Tok.lit s :: rest => (renderToks rest f).map (fun t => s ++ t)
  | Tok.fld n _ :: rest =>
      match f n with
      | none => none
      | some v => (renderToks rest f).map (fun t => v ++ t)

/-- The literal template string a token list denotes, with percent
placeholders spelled out; this is the string the source code holds. -/
def toksToFmt (toks : List Tok) : String :=
  match toks with
  | [] => ""
  | Tok.lit s :: rest => s ++ toksToFmt rest
  | Tok.fld n c :: rest => "%(" ++ n ++ ")" ++ String.mk [c] ++ toksToFmt rest

/-- ASCII model of the Python str.upper method. -/
def pyUpper (s : String) : String :=
  String.mk (s.data.map (fun c => if c.isLower then Char.ofNat (c.toNat - 32) else c))

/-- ASCII model of the Python str.lower method. -/
def pyLower (s : String) : String :=
  String.mk (s.data.map (fun c => if c.isUpper then Char.ofNat (c.toNat + 32) else c))

/-- Calendar rendering of an instant, as produced by
datetime.fromtimestamp(record.created): year, month, day, hour, minute,
second and microsecond of the record creation time. -/
structure DateTime where
  year : Nat
  month : Nat
  day : Nat
  hour : Nat
  minute : Nat
  second : Nat
  microsecond : Nat
deriving DecidableEq

/-- Zero-padded decimal rendering of width w. -/
def pad (w : Nat) (n : Nat) : String :=
  let s := toString n
  String.mk (List.replicate (w - s.length) '0') ++ s

/-- Python datetime.isoformat() for a naive datetime: the fractional
part is printed with six digits, and omitted entirely when the
microsecond component is zero. -/
def pyIsoformat (dt : DateTime) : String :=
  pad 4 dt.year ++ "-" ++ pad 2 dt.month ++ "-" ++ pad 2 dt.day ++ "T" ++
    pad 2 dt.hour ++ ":" ++ pad 2 dt.minute ++ ":" ++ pad 2 dt.second ++
    (if dt.microsecond = 0 then "" else "." ++ pad 6 dt.microsecond)

/-- A log record at formatting time: the attributes of the Python
LogRecord that this subsystem reads, plus the open set of dynamic
attributes attached by filters (string-valued). -/
structure LogRecord where
  name : String
  funcName : String
  lineno : Nat
  levelname : String
  message : String
  asctime : String
  created : DateTime
  attrs : List (String × String)
deriving DecidableEq

/-- Attribute access on a record, as percent-formatting and getattr see
it: the built-in record attributes are always present, dynamic
attributes are looked up in the open attribute set, anything else is
absent. -/
def recordLookup (r : LogRecord) (n : String) : Option String :=
  if n = "name" then some r.name
  else if n = "funcName" then some r.funcName
  else if n = "lineno" then some (toString r.lineno)
  else if n = "levelname" then some r.levelname
  else if n = "message" then some r.message
  else if n = "asctime" then some r.asctime
  else r.attrs.lookup n

/-- The per-level color table of ConsoleFormatter.__init__
(main.py lines 14-22): level name to (label color, message color). -/
def levelsTable : List (String × String × String) :=
  [("DEBUG", "yellow", "#fff9ae"),
   ("INFO", "green", "#d3ffb3"),
   ("WARNING", "orange", "#ffc100"),
   ("TIMER", "blue", "#71c7ec"),
   ("ERROR", "red", "#ba262b"),
   ("CRITICAL", "#8d0101", "#d5212e"),
   ("APP_INFO", "#5fd700", "#5fffaf")]

/-- The message part of every console template (main.py line 34). -/
def messageToks : List Tok := [Tok.lit " ", Tok.fld "message" 's']

/-- State built by ConsoleFormatter.__init__ (main.py lines 13-35):
whether a custom tag was supplied, the caller-supplied color pair,
and the asctime and attribute sub-templates. -/
structure ConsoleFormatter where
  cfmt : Bool
  colors : Option (String × String)
  asctime : List Tok
  base_attr : List Tok
deriving DecidableEq

/-- ConsoleFormatter.__init__ (main.py lines 13-35). With a non-empty
custom tag the attribute template is the uppercased tag and the colors
are the caller-supplied pair; otherwise the asctime placeholder is
wrapped in purple and the attribute template names the record fields. -/
def ConsoleFormatter.init (cfmtArg : String) (colorsArg : Option (String × String)) :
    ConsoleFormatter :=
  if cfmtArg ≠ "" then
    { cfmt := true
      colors := colorsArg
      asctime := [Tok.lit "[ "]
      base_attr := [Tok.lit (" " ++ pyUpper cfmtArg ++ " ")] }
  else
    { cfmt := false
      colors := none
      asctime := Tok.lit "[ " :: ftToks "purple" [Tok.fld "asctime" 's']
      base_attr := [Tok.lit " | ", Tok.fld "name" 's', Tok.lit " | ",
                    Tok.fld "funcName" 's', Tok.lit " | LN", Tok.fld "lineno" 'd',
                    Tok.lit " | ", Tok.fld "levelname" 's'] }

/-- ConsoleFormatter.get_format (main.py lines 37-47). In custom mode
the colors are the stored pair; in default mode they come from the
level table (empty on an unknown level) and an optional extra field is
spliced in front of the attribute template. -/
def ConsoleFormatter.get_format (cf : ConsoleFormatter) (level : String)
    (field : Option String) : List Tok :=
  let ac :=
    if cf.cfmt then (cf.base_attr, cf.colors)
    else
      ((match field with
        | some f => if f ≠ "" then [Tok.lit " | ", Tok.fld f 's'] ++ cf.base_attr
                    else cf.base_attr
        | none => cf.base_attr),
       (levelsTable.lookup level))
  match ac.2 with
  | some c => cf.asctime ++ ftToks c.1 ac.1 ++ [Tok.lit " ] "] ++ ftToks c.2 messageToks
  | none => cf.asctime ++ ac.1 ++ [Tok.lit " ] "] ++ messageToks

/-- ConsoleFormatter.format (main.py lines 49-52): build the format for
the record level with no extra field, then substitute the record. -/
def ConsoleFormatter.format (cf : ConsoleFormatter) (r : LogRecord) : Option String :=
  renderToks (cf.get_format r.levelname none) (recordLookup r)

/-- The default console formatter, as constructed by
MoeLogger._console_handler (main.py line 108): no custom tag, no
caller-supplied colors. -/
def consoleDefault : ConsoleFormatter := ConsoleFormatter.init "" none

/-- Python dict assignment d[k] = v on an insertion-ordered association
list: an existing key keeps its position and gets the new value, a new
key is appended at the end. -/
def assocSet {α : Type} : List (String × α) → String → α → List (String × α)
  | [], k, v => [(k, v)]
  | p :: rest, k, v => if p.1 = k then (k, v) :: rest else p :: assocSet rest k v

/-- The timestamp value computed by JSONFormatter.format
(main.py lines 60-61): isoformat of the creation time with the last
three characters dropped, then a literal Z appended. -/
def jsonTimestamp (dt : DateTime) : String :=
  (pyIsoformat dt).dropRight 3 ++ "Z"

/-- The message value computed by JSONFormatter.format (main.py line 59). -/
def jsonMessage (r : LogRecord) : String :=
  "[" ++ r.name ++ " | " ++ r.funcName ++ " | LN" ++ toString r.lineno ++ "]: " ++ r.message

/-- The three canonical entries set first by JSONFormatter.format
(main.py lines 62-65). -/
def baseFields (r : LogRecord) : List (String × String) :=
  [("@timestamp", jsonTimestamp r.created),
   ("log.level", r.levelname),
   ("message", jsonMessage r)]

/-- One iteration of the extra-field loop of JSONFormatter.format
(main.py lines 66-68): a declared field with a non-empty source
attribute name is written into the dict with getattr(record, source,
empty string) as its value; an empty source name is skipped. -/
def jsonStep (r : LogRecord) (acc : List (String × String)) (kv : String × String) :
    List (String × String) :=
  if kv.2 ≠ "" then assocSet acc kv.1 ((recordLookup r kv.2).getD "") else acc

/-- The JSON object built by JSONFormatter.format (main.py lines 58-69)
as an insertion-ordered association list: the three canonical entries,
then the declared extra fields in declaration order. -/
def jsonFormatFields (logging_fields : List (String × String)) (r : LogRecord) :
    List (String × String) :=
  logging_fields.foldl (jsonStep r) (baseFields r)

/-- JSON string escaping as json.dumps performs it on the strings this
code produces: quote and backslash are escaped, control characters are
written as a four-digit unicode escape. -/
def jsonEscape (s : String) : String :=
  String.join (s.data.map (fun c =>
    if c = '"' then "\\\""
    else if c = '\\' then "\\\\"
    else if c.toNat < 32 then "\\u" ++ pad 4 c.toNat
    else String.mk [c]))

/-- json.dumps with default separators on a string-valued object. -/
def jsonDumps (d : List (String × String)) : String :=
  "\x7b" ++ String.intercalate ", "
    (d.map (fun kv => "\"" ++ jsonEscape kv.1 ++ "\": \"" ++ jsonEscape kv.2 ++ "\"")) ++ "\x7d"

/-- JSONFormatter.format (main.py lines 58-69): the serialized object. -/
def JSONFormatter.format (logging_fields : List (String × String)) (r : LogRecord) : String :=
  jsonDumps (jsonFormatFields logging_fields r)

/-- The attribute map stored by one ExtraAttributes filter
(main.py lines 71-74). Values are Python objects that may be None,
modeled as an Option. -/
abbrev AttrMap := List (String × Option String)

/-- Python dict.get(k, None): absent keys and keys stored with value
None both give None. -/
def dictGet (m : AttrMap) (k : String) : Option String :=
  match m.lookup k with
  | none => none
  | some v => v

/-- Whether a filter declares an attribute name at all. -/
def declaresName (m : AttrMap) (k : String) : Bool :=
  decide (k ∈ m.map Prod.fst)

/-- How many filters in a handler filter list declare a name. -/
def countDeclaring (filters : List AttrMap) (k : String) : Nat :=
  (filters.filter (fun m => declaresName m k)).length

/-- MoeLogger._update_filter (main.py lines 145-157) acting on the
console handler filter list: the first filter whose stored value for
the field is not None is updated in place and the scan stops; if no
filter qualifies, a brand-new one-attribute filter is appended
(MoeLogger._add_filter, main.py lines 139-143). -/
def MoeLogger.update_filter : List AttrMap → String → Option String → List AttrMap
  | [], field, value => [[(field, value)]]
  | m :: rest, field, value =>
      if (dictGet m field).isSome then assocSet m field value :: rest
      else m :: MoeLogger.update_filter rest field value

/-- The level names accepted by MoeLogger._console_handler
(main.py lines 109-110). -/
def recognizedLevels : List String :=
  ["DEBUG", "INFO", "ERROR", "WARN", "WARNING", "CRITICAL", "FATAL"]

/-- The effective console level: MoeLogger.__init__ uppercases the
requested level (main.py line 86) and MoeLogger._console_handler keeps
it only if recognized, falling back to WARNING (main.py lines 109-110). -/
def MoeLogger.consoleLevel (log_level : String) : String :=
  if recognizedLevels.contains (pyUpper log_level) then pyUpper log_level else "WARNING"

/-- The on-disk state consulted by MoeLogger._file_handler: the files
that exist in the logs directory, with their sizes in bytes. -/
structure DiskFS where
  files : List (String × Nat)
deriving DecidableEq

/-- os.path.isfile within the modeled directory. -/
abbrev isfile (fs : DiskFS) (p : String) : Prop := p ∈ fs.files.map Prod.fst

/-- os.path.getsize within the modeled directory. -/
def getsize (fs : DiskFS) (p : String) : Nat := (fs.files.lookup p).getD 0

/-- os.path.join of the logs directory with the dated base file name. -/
def baseName (date : String) : String := "logs/" ++ date ++ ".log"

/-- os.path.join of the logs directory with the n-th rollover name. -/
def slotName (date : String) (n : Nat) : String :=
  "logs/" ++ date ++ "." ++ toString n ++ ".log"

/-- The while loop of MoeLogger._file_handler (main.py lines 122-128):
try numbered names from the current counter until one does not exist.
The source loop is unbounded; fuel makes the recursion structural and
the caller passes enough fuel for any finite directory. -/
def findSlot (fs : DiskFS) (date : String) : Nat → Nat → String
  | 0, cnt => slotName date cnt
  | fuel + 1, cnt =>
      if isfile fs (slotName date cnt) then findSlot fs date fuel (cnt + 1)
      else slotName date cnt

/-- The active-file selection of MoeLogger._file_handler
(main.py lines 119-128): the dated base name, unless that file exists
with size strictly above max_bytes, in which case the first free
numbered name starting at 1. -/
def selectLogFile (fs : DiskFS) (date : String) (maxBytes : Nat) : String :=
  if isfile fs (baseName date) ∧ getsize fs (baseName date) > maxBytes then
    findSlot fs date (fs.files.length + 1) 1
  else baseName date

/-- The file format template built by MoeLogger._file_handler
(main.py lines 131-133): json.dumps of the four-field dict with
indent 4 and separators comma and colon, holding percent placeholders
for asctime, app_name, levelname and the message parts. -/
def fileFormatToks : List Tok :=
  [Tok.lit "\x7b\n    \"@timestamp\":\"", Tok.fld "asctime" 's',
   Tok.lit "\",\n    \"app.name\":\"", Tok.fld "app_name" 's',
   Tok.lit "\",\n    \"log.level\":\"", Tok.fld "levelname" 's',
   Tok.lit "\",\n    \"message\":\"[", Tok.fld "name" 's',
   Tok.lit " | ", Tok.fld "funcName" 's',
   Tok.lit " | LN", Tok.fld "lineno" 'd',
   Tok.lit "]: ", Tok.fld "message" 's',
   Tok.lit "\"\n\x7d"]

/-- The file format template as the handler holds it; the method reads
self.logging_fields for nothing, so the template is independent of the
caller-declared extra fields. -/
def fileHandlerFormat (logging_fields : List (String × String)) : List Tok :=
  let _ := logging_fields
  fileFormatToks

/-- The file handler formatting a record: plain percent substitution of
the file template, which fails (KeyError) on a missing attribute. -/
def fileFormat (logging_fields : List (String × String)) (r : LogRecord) : Option String :=
  renderToks (fileHandlerFormat logging_fields) (recordLookup r)

/-- The process-wide logging state read and written by
MoeLogger.addLoggingLevel: the integer-valued level attributes on the
logging module, the callable attributes on the logging module, the
methods of the logger class, and the level-number-to-name registry. -/
structure LoggingState where
  moduleLevelAttrs : List (String × Int)
  moduleFuncAttrs : List String
  classMethods : List String
  levelNames : List (Int × String)
deriving DecidableEq

/-- hasattr(logging, n): the name is an attribute of the logging
module, either one of the integer level attributes or one of the
callables. -/
abbrev hasattrLogging (st : LoggingState) (n : String) : Prop :=
  n ∈ st.moduleLevelAttrs.map Prod.fst ∨ n ∈ st.moduleFuncAttrs

/-- A severity name counts as registered when the logging module
already has an attribute of that name. -/
abbrev registered (st : LoggingState) (levelName : String) : Prop :=
  hasattrLogging st levelName

/-- MoeLogger.addLoggingLevel (main.py lines 176-210): with the method
name defaulted to the lowercased level name, the call is a no-op
returning False when the level name or the method name is already an
attribute of the logging module or a method of the logger class;
otherwise it registers the level number under the name, installs the
module-level and class-level callables, and returns True. -/
def MoeLogger.addLoggingLevel (levelName : String) (levelNum : Int)
    (methodName : Option String) (st : LoggingState) : Bool × LoggingState :=
  if hasattrLogging st levelName then (false, st)
  else if hasattrLogging st (methodName.getD (pyLower levelName)) then (false, st)
  else if (methodName.getD (pyLower levelName)) ∈ st.classMethods then (false, st)
  else
    (true,
     { moduleLevelAttrs := st.moduleLevelAttrs ++ [(levelName, levelNum)]
       moduleFuncAttrs := st.moduleFuncAttrs ++ [methodName.getD (pyLower levelName)]
       classMethods := st.classMethods ++ [methodName.getD (pyLower levelName)]
       levelNames := st.levelNames ++ [(levelNum, levelName)] })

/-! Helper lemmas about the embedding. -/

theorem bracket_append_ne_empty (s : String) : "[ " ++ s ≠ "" := by
  intro h
  have h2 := congrArg String.length h
  rw [String.length_append] at h2
  rw [show ("[ " : String).length = 2 from rfl] at h2
  rw [show ("" : String).length = 0 from rfl] at h2
  omega

theorem lookup_assocSet_self {α : Type} (l : List (String × α)) (k : String) (v : α) :
    (assocSet l k v).lookup k = some v := by
  induction l with
  | nil => simp [assocSet, List.lookup]
  | cons p rest ih =>
    by_cases h : p.1 = k
    · simp [assocSet, h, List.lookup]
    · rw [show assocSet (p :: rest) k v = p :: assocSet rest k v by
        simp [assocSet, h]]
      rw [List.lookup]
      have hb : (k == p.1) = false := by simp [Ne.symm h]
      rw [hb]
      exact ih

theorem lookup_eq_none_of_not_mem {α : Type} (l : List (String × α)) (k : String)
    (h : k ∉ l.map Prod.fst) : l.lookup k = none := by
  induction l with
  | nil => rfl
  | cons p rest ih =>
    simp only [List.map_cons, List.mem_cons, not_or] at h
    rw [List.lookup]
    have hb : (k == p.1) = false := by simp [h.1]
    rw [hb]
    exact ih h.2

theorem lookup_assocSet_ne {α : Type} (l : List (String × α)) (k k2 : String) (v : α)
    (h : k ≠ k2) : (assocSet l k2 v).lookup k = l.lookup k := by
  have hb : (k == k2) = false := by simp [h]
  induction l with
  | nil =>
    show List.lookup k [(k2, v)] = List.lookup k []
    exact lookup_eq_none_of_not_mem [(k2, v)] k (by simp [h])
  | cons p rest ih =>
    by_cases hp : p.1 = k2
    · rw [show assocSet (p :: rest) k2 v = (k2, v) :: rest by simp [assocSet, hp]]
      rw [List.lookup, hb, List.lookup]
      have hbp : (k == p.1) = false := by rw [hp]; exact hb
      rw [hbp]
    · rw [show assocSet (p :: rest) k2 v = p :: assocSet rest k2 v by simp [assocSet, hp]]
      rw [List.lookup, List.lookup]
      by_cases hk : k = p.1
      · have : (k == p.1) = true := by simp [hk]
        rw [this]
      · have : (k == p.1) = false := by simp [hk]
        rw [this]
        exact ih

theorem assocSet_keys_of_not_mem {α : Type} (l : List (String × α)) (k : String) (v : α)
    (h : k ∉ l.map Prod.fst) : (assocSet l k v).map Prod.fst = l.map Prod.fst ++ [k] := by
  induction l with
  | nil => simp [assocSet]
  | cons p rest ih =>
    simp only [List.map_cons, List.mem_cons, not_or] at h
    have hp : p.1 ≠ k := fun hc => h.1 hc.symm
    rw [show assocSet (p :: rest) k v = p :: assocSet rest k v by simp [assocSet, hp]]
    simp only [List.map_cons, List.cons_append]
    rw [ih h.2]

theorem renderToks_some (toks : List Tok) (f : String → Option String)
    (h : ∀ n c, Tok.fld n c ∈ toks → (f n).isSome = true) :
    ∃ s, renderToks toks f = some s := by
  induction toks with
  | nil => exact ⟨"", rfl⟩
  | cons t rest ih =>
    obtain ⟨s, hs⟩ : ∃ s, renderToks rest f = some s := by
      apply ih
      intro n c hm
      exact h n c (List.mem_cons_of_mem t hm)
    cases t with
    | lit p =>
      refine ⟨p ++ s, ?_⟩
      rw [renderToks, hs]
      rfl
    | fld n c =>
      have hn : (f n).isSome = true := h n c (List.mem_cons_self _ _)
      obtain ⟨v, hv⟩ := Option.isSome_iff_exists.mp hn
      refine ⟨v ++ s, ?_⟩
      rw [renderToks, hv, hs]
      rfl

theorem renderToks_fld_split (toks : List Tok) (f : String → Option String)
    (s : String) (n : String) (c : Char) (v : String)
    (hr : renderToks toks f = some s) (hm : Tok.fld n c ∈ toks) (hf : f n = some v) :
    ∃ a b, s = a ++ v ++ b := by
  induction toks generalizing s with
  | nil => cases hm
  | cons t rest ih =>
    cases t with
    | lit p =>
      rw [renderToks] at hr
      cases hrest : renderToks rest f with
      | none => rw [hrest] at hr; cases hr
      | some s2 =>
        rw [hrest] at hr
        have hr2 : p ++ s2 = s := Option.some.inj hr
        have hm2 : Tok.fld n c ∈ rest := by
          rcases List.mem_cons.mp hm with h2 | h2
          · exact Tok.noConfusion h2
          · exact h2
        obtain ⟨a, b, hab⟩ := ih s2 hrest hm2
        exact ⟨p ++ a, b, by rw [← hr2, hab]; simp [String.append_assoc]⟩
    | fld m c2 =>
      rw [renderToks] at hr
      cases hfm : f m with
      | none => rw [hfm] at hr; cases hr
      | some w =>
        rw [hfm] at hr
        cases hrest : renderToks rest f with
        | none => rw [hrest] at hr; cases hr
        | some s2 =>
          rw [hrest] at hr
          have hr2 : w ++ s2 = s := Option.some.inj hr
          by_cases hnm : n = m
          · subst hnm
            rw [hf] at hfm
            have hvw : v = w := Option.some.inj hfm
            subst hvw
            exact ⟨"", s2, by rw [← hr2]; rfl⟩
          · have hm2 : Tok.fld n c ∈ rest := by
              rcases List.mem_cons.mp hm with h2 | h2
              · injection h2 with e1 e2
                exact absurd e1 hnm
              · exact h2
            obtain ⟨a, b, hab⟩ := ih s2 hrest hm2
            exact ⟨w ++ a, b, by rw [← hr2, hab]; simp [String.append_assoc]⟩

theorem renderToks_head_lit (p : String) (rest : List Tok) (f : String → Option String)
    (s : String) (hr : renderToks (Tok.lit p :: rest) f = some s) :
    ∃ t, s = p ++ t := by
  rw [renderToks] at hr
  cases hrest : renderToks rest f with
  | none => rw [hrest] at hr; cases hr
  | some s2 =>
    rw [hrest] at hr
    exact ⟨s2, (Option.some.inj hr).symm⟩

theorem renderToks_none_of_missing (toks : List Tok) (f : String → Option String)
    (n : String) (c : Char) (hm : Tok.fld n c ∈ toks) (hf : f n = none) :
    renderToks toks f = none := by
  induction toks with
  | nil => cases hm
  | cons t rest ih =>
    cases t with
    | lit p =>
      have hm2 : Tok.fld n c ∈ rest := by
        rcases List.mem_cons.mp hm with h2 | h2
        · exact Tok.noConfusion h2
        · exact h2
      rw [renderToks, ih hm2]
      rfl
    | fld m c2 =>
      by_cases hnm : m = n
      · subst hnm
        rw [renderToks, hf]
      · have hm2 : Tok.fld n c ∈ rest := by
          rcases List.mem_cons.mp hm with h2 | h2
          · injection h2 with e1 e2
            exact absurd e1.symm hnm
          · exact h2
        rw [renderToks]
        cases hfm : f m with
        | none => rfl
        | some w => rw [ih hm2]; rfl

theorem jsonFold_keys (r : LogRecord) (fields : List (String × String)) :
    ∀ acc : List (String × String),
    (fields.map Prod.fst).Nodup →
    (∀ p ∈ fields, p.2 ≠ "" → p.1 ∉ acc.map Prod.fst) →
    (List.foldl (jsonStep r) acc fields).map Prod.fst
      = acc.map Prod.fst ++ (fields.filter (fun p => p.2 ≠ "")).map Prod.fst := by
  induction fields with
  | nil =>
    intro acc _ _
    simp
  | cons kv rest ih =>
    intro acc hnd hc
    simp only [List.map_cons, List.nodup_cons] at hnd
    rw [List.foldl_cons]
    by_cases hv : kv.2 = ""
    · rw [show jsonStep r acc kv = acc by simp [jsonStep, hv]]
      rw [show (kv :: rest).filter (fun p => p.2 ≠ "") = rest.filter (fun p => p.2 ≠ "") by
        simp [List.filter_cons, hv]]
      exact ih acc hnd.2 (fun p hp => hc p (List.mem_cons_of_mem kv hp))
    · have hknotin : kv.1 ∉ acc.map Prod.fst := hc kv (List.mem_cons_self _ _) hv
      rw [show jsonStep r acc kv = assocSet acc kv.1 ((recordLookup r kv.2).getD "") by
        simp [jsonStep, hv]]
      have hkeys := assocSet_keys_of_not_mem acc kv.1 ((recordLookup r kv.2).getD "") hknotin
      have hc2 : ∀ p ∈ rest, p.2 ≠ "" →
          p.1 ∉ (assocSet acc kv.1 ((recordLookup r kv.2).getD "")).map Prod.fst := by
        intro p hp hpne
        rw [hkeys]
        intro hmem
        rcases List.mem_append.mp hmem with hin | hin
        · exact hc p (List.mem_cons_of_mem kv hp) hpne hin
        · have he : p.1 = kv.1 := by simpa using hin
          exact hnd.1 (he ▸ List.mem_map_of_mem Prod.fst hp)
      rw [ih _ hnd.2 hc2, hkeys]
      rw [show (kv :: rest).filter (fun p => p.2 ≠ "") = kv :: rest.filter (fun p => p.2 ≠ "") by
        simp [List.filter_cons, hv]]
      simp

theorem jsonFold_lookup_frozen (r : LogRecord) (fields : List (String × String)) :
    ∀ (acc : List (String × String)) (k : String), (∀ p ∈ fields, p.1 ≠ k) →
    (List.foldl (jsonStep r) acc fields).lookup k = acc.lookup k := by
  induction fields with
  | nil =>
    intro acc k _
    rfl
  | cons kv rest ih =>
    intro acc k h
    rw [List.foldl_cons]
    have h1 := ih (jsonStep r acc kv) k (fun p hp => h p (List.mem_cons_of_mem kv hp))
    rw [h1]
    by_cases hv : kv.2 = ""
    · simp [jsonStep, hv]
    · rw [show jsonStep r acc kv = assocSet acc kv.1 ((recordLookup r kv.2).getD "") by
        simp [jsonStep, hv]]
      exact lookup_assocSet_ne acc k kv.1 _ (fun he => h kv (List.mem_cons_self _ _) he.symm)

theorem jsonFold_lookup (r : LogRecord) (fields : List (String × String)) :
    ∀ (acc : List (String × String)) (k src : String),
    (fields.map Prod.fst).Nodup → (k, src) ∈ fields → src ≠ "" →
    (List.foldl (jsonStep r) acc fields).lookup k = some ((recordLookup r src).getD "") := by
  induction fields with
  | nil =>
    intro acc k src _ hmem _
    cases hmem
  | cons kv rest ih =>
    intro acc k src hnd hmem hs
    simp only [List.map_cons, List.nodup_cons] at hnd
    rw [List.foldl_cons]
    rcases List.mem_cons.mp hmem with heq | hin
    · have hkv : kv = (k, src) := heq.symm
      subst hkv
      rw [show jsonStep r acc (k, src) = assocSet acc k ((recordLookup r src).getD "") by
        simp [jsonStep, hs]]
      have hfrozen : ∀ p ∈ rest, p.1 ≠ k := by
        intro p hp he
        have hpm : p.1 ∈ rest.map Prod.fst := List.mem_map_of_mem Prod.fst hp
        rw [he] at hpm
        exact hnd.1 hpm
      rw [jsonFold_lookup_frozen r rest _ k hfrozen]
      exact lookup_assocSet_self acc k _
    · exact ih (jsonStep r acc kv) k src hnd.2 hin hs

theorem findSlot_eq (fs : DiskFS) (date : String) (k : Nat) :
    ∀ fuel cnt, cnt ≤ k → k ≤ cnt + fuel →
    (∀ i, i < k → cnt ≤ i → isfile fs (slotName date i)) →
    ¬ isfile fs (slotName date k) →
    findSlot fs date fuel cnt = slotName date k := by
  intro fuel
  induction fuel with
  | zero =>
    intro cnt h1 h2 _ _
    have hck : cnt = k := by omega
    rw [findSlot, hck]
  | succ fuel ih =>
    intro cnt h1 h2 hocc hfree
    by_cases hck : cnt = k
    · rw [findSlot, if_neg (hck ▸ hfree), hck]
    · have hlt : cnt < k := lt_of_le_of_ne h1 hck
      rw [findSlot, if_pos (hocc cnt hlt (le_refl cnt))]
      exact ih (cnt + 1) hlt (by omega) (fun i hi hci => hocc i hi (by omega)) hfree

theorem update_filter_fresh (filters : List AttrMap) (field : String) (value : Option String)
    (h : ∀ m ∈ filters, (dictGet m field).isSome = false) :
    MoeLogger.update_filter filters field value = filters ++ [[(field, value)]] := by
  induction filters with
  | nil => rfl
  | cons m rest ih =>
    have hd : (dictGet m field).isSome = false := h m (List.mem_cons_self _ _)
    rw [MoeLogger.update_filter, if_neg (by simp [hd]), List.cons_append]
    exact congrArg (List.cons m) (ih (fun m2 hm2 => h m2 (List.mem_cons_of_mem m hm2)))

theorem update_filter_mutate (pre : List AttrMap) (m : AttrMap) (post : List AttrMap)
    (field : String) (v : Option String)
    (hpre : ∀ m2 ∈ pre, (dictGet m2 field).isSome = false)
    (hm : (dictGet m field).isSome = true) :
    MoeLogger.update_filter (pre ++ m :: post) field v = pre ++ assocSet m field v :: post := by
  induction pre with
  | nil =>
    show MoeLogger.update_filter (m :: post) field v = assocSet m field v :: post
    rw [MoeLogger.update_filter, if_pos hm]
  | cons p rest ih =>
    have hp : (dictGet p field).isSome = false := hpre p (List.mem_cons_self _ _)
    rw [List.cons_append, MoeLogger.update_filter, if_neg (by simp [hp]), List.cons_append]
    exact congrArg (List.cons p) (ih (fun m2 hm2 => hpre m2 (List.mem_cons_of_mem p hm2)))

theorem dictGet_isSome_false_of_undeclared (m : AttrMap) (field : String)
    (h : declaresName m field = false) : (dictGet m field).isSome = false := by
  have hnotin : field ∉ m.map Prod.fst := by simpa [declaresName] using h
  rw [dictGet, lookup_eq_none_of_not_mem m field hnotin]
  rfl

theorem countDeclaring_append_one (filters : List AttrMap) (field : String) (v : Option String)
    (h : ∀ m ∈ filters, declaresName m field = false) :
    countDeclaring (filters ++ [[(field, v)]]) field = 1 := by
  rw [countDeclaring, List.filter_append]
  rw [show filters.filter (fun m => declaresName m field) = [] from
    List.filter_eq_nil_iff.mpr (fun m hm => by simp [h m hm])]
  simp [declaresName]

theorem get_format_asctime_head (cf : ConsoleFormatter) (lvl : String) :
    ∃ tl, ConsoleFormatter.get_format cf lvl none = cf.asctime ++ tl := by
  by_cases hcb : cf.cfmt = true
  · cases hcol : cf.colors with
    | some c =>
      refine ⟨ftToks c.1 cf.base_attr ++ ([Tok.lit " ] "] ++ ftToks c.2 messageToks), ?_⟩
      simp [ConsoleFormatter.get_format.eq_def, hcb, hcol, List.append_assoc]
    | none =>
      refine ⟨cf.base_attr ++ ([Tok.lit " ] "] ++ messageToks), ?_⟩
      simp [ConsoleFormatter.get_format.eq_def, hcb, hcol, List.append_assoc]
  · cases hl : levelsTable.lookup lvl with
    | some c =>
      refine ⟨ftToks c.1 cf.base_attr ++ ([Tok.lit " ] "] ++ ftToks c.2 messageToks), ?_⟩
      simp [ConsoleFormatter.get_format.eq_def, hcb, hl, List.append_assoc]
    | none =>
      refine ⟨cf.base_attr ++ ([Tok.lit " ] "] ++ messageToks), ?_⟩
      simp [ConsoleFormatter.get_format.eq_def, hcb, hl, List.append_assoc]

theorem init_asctime_head (cfmtArg : String) (colorsArg : Option (String × String)) :
    ∃ A, (ConsoleFormatter.init cfmtArg colorsArg).asctime = Tok.lit "[ " :: A := by
  by_cases hcf : cfmtArg = ""
  · exact ⟨ftToks "purple" [Tok.fld "asctime" 's'], by simp [ConsoleFormatter.init, hcf]⟩
  · exact ⟨[], by simp [ConsoleFormatter.init, hcf]⟩

theorem get_format_message_mem (cf : ConsoleFormatter) (lvl : String) :
    Tok.fld "message" 's' ∈ ConsoleFormatter.get_format cf lvl none := by
  by_cases hcb : cf.cfmt = true
  · cases hcol : cf.colors with
    | some c => simp [ConsoleFormatter.get_format.eq_def, hcb, hcol, ftToks, messageToks]
    | none => simp [ConsoleFormatter.get_format.eq_def, hcb, hcol, messageToks]
  · cases hl : levelsTable.lookup lvl with
    | some c => simp [ConsoleFormatter.get_format.eq_def, hcb, hl, ftToks, messageToks]
    | none => simp [ConsoleFormatter.get_format.eq_def, hcb, hl, messageToks]

theorem console_resolvable (cfmtArg : String) (colorsArg : Option (String × String))
    (lvl : String) (r : LogRecord) (n : String) (c : Char)
    (hm : Tok.fld n c ∈
      ConsoleFormatter.get_format (ConsoleFormatter.init cfmtArg colorsArg) lvl none) :
    (recordLookup r n).isSome = true := by
  by_cases hcf : cfmtArg = ""
  · cases hl : levelsTable.lookup lvl with
    | none =>
      simp [ConsoleFormatter.init, ConsoleFormatter.get_format.eq_def, hcf, hl, ftToks,
        messageToks] at hm
      rcases hm with ⟨h1, h2⟩ | ⟨h1, h2⟩ | ⟨h1, h2⟩ | ⟨h1, h2⟩ | ⟨h1, h2⟩ | ⟨h1, h2⟩ <;>
        subst h1 <;> simp [recordLookup]
    | some cpair =>
      simp [ConsoleFormatter.init, ConsoleFormatter.get_format.eq_def, hcf, hl, ftToks,
        messageToks] at hm
      rcases hm with ⟨h1, h2⟩ | ⟨h1, h2⟩ | ⟨h1, h2⟩ | ⟨h1, h2⟩ | ⟨h1, h2⟩ | ⟨h1, h2⟩ <;>
        subst h1 <;> simp [recordLookup]
  · cases colorsArg with
    | none =>
      simp [ConsoleFormatter.init, ConsoleFormatter.get_format.eq_def, hcf, ftToks,
        messageToks] at hm
      rcases hm with ⟨h1, h2⟩
      subst h1
      simp [recordLookup]
    | some cpair =>
      simp [ConsoleFormatter.init, ConsoleFormatter.get_format.eq_def, hcf, ftToks,
        messageToks] at hm
      rcases hm with ⟨h1, h2⟩
      subst h1
      simp [recordLookup]

/-! Sample data for witnesses and counterexamples. -/

/-- A record carrying the svc_name dynamic attribute. -/
def sampleRecord : LogRecord :=
  { name := "app", funcName := "main", lineno := 7, levelname := "INFO",
    message := "hello", asctime := "2024-01-01T00:00:01.250Z",
    created := ⟨2024, 1, 1, 0, 0, 1, 250000⟩, attrs := [("svc_name", "checkout")] }

/-- A record with no dynamic attributes at all. -/
def bareRecord : LogRecord :=
  { name := "app", funcName := "main", lineno := 7, levelname := "WARNING",
    message := "disk low", asctime := "2024-01-01T00:00:01.250Z",
    created := ⟨2024, 1, 1, 0, 0, 1, 250000⟩, attrs := [] }

/-- A logs directory holding an oversized dated file and its first
rollover file. -/
def diskExample : DiskFS :=
  { files := [("logs/2024-01-01.log", 3145729), ("logs/2024-01-01.1.log", 64)] }

/-- The stock logging module state before any custom severity: standard
level attributes, module-level helpers, logger-class methods. -/
def loggingBase : LoggingState :=
  { moduleLevelAttrs := [("DEBUG", 10), ("INFO", 20), ("WARNING", 30), ("ERROR", 40),
      ("CRITICAL", 50)]
    moduleFuncAttrs := ["debug", "info", "warning", "error", "critical", "log"]
    classMethods := ["debug", "info", "warning", "error", "critical", "log"]
    levelNames := [(10, "DEBUG"), (20, "INFO"), (30, "WARNING"), (40, "ERROR"),
      (50, "CRITICAL")] }

/-- The logging state after TIMER has been registered once. -/
def loggingAfterTimer : LoggingState :=
  (MoeLogger.addLoggingLevel "TIMER" 55 none loggingBase).2

/-! Claim theorems. -/

/-- Claim C1, counterexample to the statement as given: when a declared
extra field is itself named message (a canonical key) with a non-empty
source, dict assignment overwrites the canonical entry instead of
appending a fourth key, so the key list is not the three canonical keys
followed by one key per non-empty-source declared field. -/
theorem jsonFormat_keys_cex :
    (jsonFormatFields [("message", "svc_name")] sampleRecord).map Prod.fst
      ≠ ["@timestamp", "log.level", "message"]
          ++ (([("message", "svc_name")].filter (fun p => p.2 ≠ "")).map Prod.fst) := by
  decide

/-- Claim C1 (amended): for declared extra fields whose names are
pairwise distinct (the Python dict invariant) and, when their source is
non-empty, distinct from the three canonical keys, the Structured
Formatter object has exactly the keys timestamp, level, message
followed by one key per non-empty-source declared field, in declaration
order. -/
theorem jsonFormat_keys (fields : List (String × String)) (r : LogRecord)
    (hnd : (fields.map Prod.fst).Nodup)
    (hc : ∀ p ∈ fields, p.2 ≠ "" →
      p.1 ∉ (["@timestamp", "log.level", "message"] : List String)) :
    (jsonFormatFields fields r).map Prod.fst
      = ["@timestamp", "log.level", "message"]
          ++ (fields.filter (fun p => p.2 ≠ "")).map Prod.fst := by
  have hbase : (baseFields r).map Prod.fst = ["@timestamp", "log.level", "message"] := rfl
  have hc2 : ∀ p ∈ fields, p.2 ≠ "" → p.1 ∉ (baseFields r).map Prod.fst := by
    intro p hp hpne
    rw [hbase]
    exact hc p hp hpne
  rw [jsonFormatFields, jsonFold_keys r fields (baseFields r) hnd hc2, hbase]

/-- Claim C1 witness: one declared extra field with non-empty source
yields exactly the three canonical keys plus that field name. -/
theorem jsonFormat_keys_witness :
    (jsonFormatFields [("service", "svc_name")] sampleRecord).map Prod.fst
      = ["@timestamp", "log.level", "message"]
          ++ (([("service", "svc_name")].filter (fun p => p.2 ≠ "")).map Prod.fst) :=
  jsonFormat_keys [("service", "svc_name")] sampleRecord (by decide) (by decide)

/-- Claim C2: at a whole-second creation instant (microsecond zero) the
Structured Formatter timestamp drops the seconds field instead of
rendering millisecond precision: isoformat omits the fractional part,
and dropping three characters then removes the seconds, contradicting
the documented millisecond Z format. -/
theorem jsonTimestamp_truncates_on_whole_second :
    jsonTimestamp ⟨2024, 1, 1, 0, 0, 0, 0⟩ = "2024-01-01T00:00Z"
    ∧ jsonTimestamp ⟨2024, 1, 1, 0, 0, 0, 0⟩ ≠ "2024-01-01T00:00:00.000Z"
    ∧ jsonTimestamp ⟨2024, 1, 1, 0, 0, 1, 250000⟩ = "2024-01-01T00:00:01.250Z" := by
  decide

/-- Claim C3: registering an already-registered severity name again,
with any rank, is a no-op returning False and leaving the whole logging
state (rank mapping and installed callables) unchanged; and a repeated
identical registration always reports False and leaves the state of the
first call untouched. -/
theorem addLoggingLevel_idempotent (st : LoggingState) (name : String) (num num2 : Int)
    (mn : Option String) :
    (registered st name → MoeLogger.addLoggingLevel name num2 mn st = (false, st))
    ∧ MoeLogger.addLoggingLevel name num2 mn (MoeLogger.addLoggingLevel name num mn st).2
        = (false, (MoeLogger.addLoggingLevel name num mn st).2) := by
  constructor
  · intro h
    simp [MoeLogger.addLoggingLevel, h]
  · by_cases h1 : hasattrLogging st name
    · simp [MoeLogger.addLoggingLevel, h1]
    · by_cases h2 : hasattrLogging st (mn.getD (pyLower name))
      · simp [MoeLogger.addLoggingLevel, h1, h2]
      · by_cases h3 : (mn.getD (pyLower name)) ∈ st.classMethods
        · simp [MoeLogger.addLoggingLevel, h1, h2, h3]
        · have hstep : MoeLogger.addLoggingLevel name num mn st
              = (true, ⟨st.moduleLevelAttrs ++ [(name, num)],
                  st.moduleFuncAttrs ++ [mn.getD (pyLower name)],
                  st.classMethods ++ [mn.getD (pyLower name)],
                  st.levelNames ++ [(num, name)]⟩) := by
            simp [MoeLogger.addLoggingLevel, h1, h2, h3]
          rw [hstep]
          have hreg : hasattrLogging
              (⟨st.moduleLevelAttrs ++ [(name, num)],
                st.moduleFuncAttrs ++ [mn.getD (pyLower name)],
                st.classMethods ++ [mn.getD (pyLower name)],
                st.levelNames ++ [(num, name)]⟩ : LoggingState) name := by
            left
            simp
          simp [MoeLogger.addLoggingLevel, hreg]

/-- Claim C3 witness: after one registration of TIMER, a second call
with a different rank is a no-op returning False. -/
theorem addLoggingLevel_idempotent_witness :
    registered loggingAfterTimer "TIMER"
    ∧ MoeLogger.addLoggingLevel "TIMER" 60 none loggingAfterTimer
        = (false, loggingAfterTimer) :=
  ⟨by decide,
   (addLoggingLevel_idempotent loggingAfterTimer "TIMER" 55 60 none).1 (by decide)⟩

/-- Claim C4, counterexample to the statement as given: even for a level
absent from the color table the default-mode format string carries ANSI
wrapping, because the asctime placeholder was wrapped in the fixed
purple accent at construction time. -/
theorem console_unknown_level_ansi_cex :
    levelsTable.lookup "TRACE" = none
    ∧ ansiEsc ∈ (toksToFmt (ConsoleFormatter.get_format consoleDefault "TRACE" none)).data := by
  decide

/-- Claim C4 (amended): for a severity name absent from the color table,
the default-mode formatter does not fail and applies no severity-derived
color: the format is the fixed asctime prefix followed by the plain
attribute tag, separator and message, and everything after that fixed
prefix is free of ANSI escapes; formatting any record at such a level
succeeds. -/
theorem console_unknown_level_uncolored (lvl : String)
    (h : levelsTable.lookup lvl = none) :
    ConsoleFormatter.get_format consoleDefault lvl none
        = consoleDefault.asctime ++ consoleDefault.base_attr ++ [Tok.lit " ] "] ++ messageToks
    ∧ ansiEsc ∉ (toksToFmt (consoleDefault.base_attr ++ [Tok.lit " ] "] ++ messageToks)).data
    ∧ ∀ r : LogRecord, r.levelname = lvl →
        (ConsoleFormatter.format consoleDefault r).isSome = true := by
  refine ⟨?_, by decide, ?_⟩
  · simp [ConsoleFormatter.get_format.eq_def, consoleDefault, ConsoleFormatter.init, h]
  · intro r hr
    obtain ⟨s, hs⟩ := renderToks_some
      (ConsoleFormatter.get_format consoleDefault r.levelname none) (recordLookup r)
      (fun n c hm => console_resolvable "" none r.levelname r n c hm)
    unfold ConsoleFormatter.format
    rw [hs]
    rfl

/-- Claim C4 witness: the level WOOF is not in the color table, and its
default-mode format is the plain uncolored shape after the fixed
asctime prefix. -/
theorem console_unknown_level_uncolored_witness :
    levelsTable.lookup "WOOF" = none
    ∧ ConsoleFormatter.get_format consoleDefault "WOOF" none
        = consoleDefault.asctime ++ consoleDefault.base_attr ++ [Tok.lit " ] "] ++ messageToks :=
  ⟨by decide, (console_unknown_level_uncolored "WOOF" (by decide)).1⟩

/-- Claim C5: when the dated base file exists with size strictly above
the byte threshold, the file handler picks the numbered file for the
least index at least 1 whose name does not exist on disk (the
hypotheses state that every smaller positive index is taken and index k
is free, within the range the finite directory allows). -/
theorem selectLogFile_rollover (fs : DiskFS) (date : String) (maxBytes k : Nat)
    (hbase : isfile fs (baseName date))
    (hsize : getsize fs (baseName date) > maxBytes)
    (hocc : ∀ i, i < k → 1 ≤ i → isfile fs (slotName date i))
    (hfree : ¬ isfile fs (slotName date k))
    (hk1 : 1 ≤ k) (hk : k ≤ fs.files.length + 1) :
    selectLogFile fs date maxBytes = slotName date k := by
  unfold selectLogFile
  rw [if_pos ⟨hbase, hsize⟩]
  exact findSlot_eq fs date k (fs.files.length + 1) 1 hk1 (by omega) hocc hfree

/-- Claim C5 witness: with the 2024-01-01 base file oversized and the
first rollover file present, the handler selects the second rollover
file. -/
theorem selectLogFile_rollover_witness :
    selectLogFile diskExample "2024-01-01" 3145728 = slotName "2024-01-01" 2
    ∧ slotName "2024-01-01" 2 = "logs/2024-01-01.2.log" :=
  ⟨selectLogFile_rollover diskExample "2024-01-01" 3145728 2 (by decide) (by decide)
      (by decide) (by decide) (by decide) (by decide),
   by decide⟩

/-- Claim C6, counterexample to the statement as given: with first value
None, the second update does not mutate the existing filter, because the
scan treats a stored None as not declaring the name; a second filter is
attached and two filters then declare the name. -/
theorem update_filter_none_value_cex :
    MoeLogger.update_filter (MoeLogger.update_filter [] "app_name" none) "app_name" (some "Y")
      = [[("app_name", none)], [("app_name", some "Y")]]
    ∧ countDeclaring (MoeLogger.update_filter (MoeLogger.update_filter [] "app_name" none)
        "app_name" (some "Y")) "app_name" ≠ 1 := by
  decide

/-- Claim C6 (amended): for every attribute name and every value, None
included: when some filter already stores a non-None value for the name,
update_filter mutates the first such filter (in attachment order) in
place and attaches nothing; when every filter stores no non-None value
for the name, a single new one-attribute filter is attached at the end;
consequently, starting from filters none of which declares the name,
update_filter(name, v1) with v1 not None followed by
update_filter(name, v2) with v2 arbitrary (possibly None) results in
exactly one filter declaring the name, whose stored value is v2. -/
theorem update_filter_spec (pre post filters : List AttrMap) (m : AttrMap)
    (field : String) (v1 : String) (v v2 : Option String) :
    ((∀ m2 ∈ pre, (dictGet m2 field).isSome = false) → (dictGet m field).isSome = true →
        MoeLogger.update_filter (pre ++ m :: post) field v
          = pre ++ assocSet m field v :: post)
    ∧ ((∀ m2 ∈ filters, (dictGet m2 field).isSome = false) →
        MoeLogger.update_filter filters field v = filters ++ [[(field, v)]])
    ∧ ((∀ m2 ∈ filters, declaresName m2 field = false) →
        MoeLogger.update_filter (MoeLogger.update_filter filters field (some v1)) field v2
            = filters ++ [[(field, v2)]]
          ∧ countDeclaring (MoeLogger.update_filter
              (MoeLogger.update_filter filters field (some v1)) field v2) field = 1) := by
  refine ⟨fun hpre hm => update_filter_mutate pre m post field v hpre hm,
          fun h => update_filter_fresh filters field v h,
          fun h => ?_⟩
  have hiso : ∀ m2 ∈ filters, (dictGet m2 field).isSome = false :=
    fun m2 hm2 => dictGet_isSome_false_of_undeclared m2 field (h m2 hm2)
  have h1 : MoeLogger.update_filter filters field (some v1) = filters ++ [[(field, some v1)]] :=
    update_filter_fresh filters field (some v1) hiso
  have h2 : MoeLogger.update_filter (filters ++ [[(field, some v1)]]) field v2
      = filters ++ [[(field, v2)]] := by
    have h3 := update_filter_mutate filters [(field, some v1)] [] field v2 hiso
      (by simp [dictGet, List.lookup])
    rw [h3, show assocSet [(field, some v1)] field v2 = [(field, v2)] by simp [assocSet]]
  refine ⟨?_, ?_⟩
  · rw [h1]
    exact h2
  · rw [h1, h2]
    exact countDeclaring_append_one filters field v2 h

/-- Claim C6 witness: a filter storing a non-None app_name is mutated in
place, to None included, with a later filter untouched; and updating
app_name to X then to Y from no filters leaves a single filter declaring
app_name with value Y. -/
theorem update_filter_spec_witness :
    MoeLogger.update_filter [[("app_name", some "X")], [("other", some "Z")]] "app_name" none
      = [[("app_name", none)], [("other", some "Z")]]
    ∧ MoeLogger.update_filter (MoeLogger.update_filter [] "app_name" (some "X"))
        "app_name" (some "Y")
      = [[("app_name", some "Y")]]
    ∧ countDeclaring (MoeLogger.update_filter (MoeLogger.update_filter [] "app_name" (some "X"))
        "app_name" (some "Y")) "app_name" = 1 :=
  ⟨((update_filter_spec [] [[("other", some "Z")]] [] [("app_name", some "X")]
        "app_name" "X" none none).1 (by decide) (by decide)).trans (by decide),
   ((update_filter_spec [] [] [] [] "app_name" "X" none (some "Y")).2.2 (by decide)).1,
   ((update_filter_spec [] [] [] [] "app_name" "X" none (some "Y")).2.2 (by decide)).2⟩

/-- Claim C7: a declared extra field whose non-empty source attribute is
absent from the record is still emitted, with the empty string as its
value, and the formatter never fails (it is a total function in this
embedding; getattr supplies the empty-string default). -/
theorem jsonFormat_missing_attr (fields : List (String × String)) (r : LogRecord)
    (k src : String) (hmem : (k, src) ∈ fields) (hs : src ≠ "")
    (hnd : (fields.map Prod.fst).Nodup) (habs : recordLookup r src = none) :
    (jsonFormatFields fields r).lookup k = some "" := by
  rw [jsonFormatFields, jsonFold_lookup r fields (baseFields r) k src hnd hmem hs, habs]
  rfl

/-- Claim C7 witness: the service field declared with source svc_name is
emitted as the empty string for a record without that attribute. -/
theorem jsonFormat_missing_attr_witness :
    recordLookup bareRecord "svc_name" = none
    ∧ (jsonFormatFields [("service", "svc_name")] bareRecord).lookup "service" = some "" :=
  ⟨by decide,
   jsonFormat_missing_attr [("service", "svc_name")] bareRecord "service" "svc_name"
     (by decide) (by decide) (by decide) (by decide)⟩

/-- Claim C8, counterexample to the statement as given: the lowercase
string debug is not a member of the recognized set as written, yet the
effective console level is DEBUG, not WARNING, because the facade
uppercases the requested level before validating it. -/
theorem consoleLevel_case_cex :
    ("debug" ∉ recognizedLevels) ∧ MoeLogger.consoleLevel "debug" ≠ "WARNING" := by
  decide

/-- Claim C8 (amended): for every minimum-level string whose uppercasing
is not in the recognized set, facade construction does not fail and the
effective console level is WARNING. -/
theorem consoleLevel_fallback (log_level : String)
    (h : recognizedLevels.contains (pyUpper log_level) = false) :
    MoeLogger.consoleLevel log_level = "WARNING" := by
  have h2 : pyUpper log_level ∉ recognizedLevels := by simpa using h
  simp [MoeLogger.consoleLevel, h2]

/-- Claim C8 witness: the unrecognized level VERBOSE falls back to
WARNING. -/
theorem consoleLevel_fallback_witness :
    recognizedLevels.contains (pyUpper "VERBOSE") = false
    ∧ MoeLogger.consoleLevel "VERBOSE" = "WARNING" :=
  ⟨by decide, consoleLevel_fallback "VERBOSE" (by decide)⟩

/-- Claim C9: for every construction of the Console Formatter and every
record, formatting succeeds and the output is a non-empty string that
contains the record message text verbatim as a contiguous substring. -/
theorem console_format_message (cfmtArg : String) (colorsArg : Option (String × String))
    (r : LogRecord) :
    ∃ s, ConsoleFormatter.format (ConsoleFormatter.init cfmtArg colorsArg) r = some s
      ∧ s ≠ "" ∧ ∃ a b, s = a ++ r.message ++ b := by
  obtain ⟨s, hs⟩ := renderToks_some
    (ConsoleFormatter.get_format (ConsoleFormatter.init cfmtArg colorsArg) r.levelname none)
    (recordLookup r)
    (fun n c hm => console_resolvable cfmtArg colorsArg r.levelname r n c hm)
  refine ⟨s, hs, ?_, ?_⟩
  · obtain ⟨A, hA⟩ := init_asctime_head cfmtArg colorsArg
    obtain ⟨tl, htl⟩ :=
      get_format_asctime_head (ConsoleFormatter.init cfmtArg colorsArg) r.levelname
    have hcons : ConsoleFormatter.get_format (ConsoleFormatter.init cfmtArg colorsArg)
        r.levelname none = Tok.lit "[ " :: (A ++ tl) := by
      rw [htl, hA]
      rfl
    rw [hcons] at hs
    obtain ⟨t, ht⟩ := renderToks_head_lit "[ " (A ++ tl) (recordLookup r) s hs
    rw [ht]
    exact bracket_append_ne_empty t
  · exact renderToks_fld_split _ _ s "message" 's' r.message hs
      (get_format_message_mem (ConsoleFormatter.init cfmtArg colorsArg) r.levelname)
      (by simp [recordLookup])

/-- Claim C10: the file handler template always contains the app_name
field placeholder, whatever extra fields the caller declared, and
formatting a record that lacks the app_name attribute fails with a
substitution error rather than an empty-string fallback. -/
theorem fileFormat_app_name (logging_fields : List (String × String)) (r : LogRecord)
    (habs : recordLookup r "app_name" = none) :
    Tok.fld "app_name" 's' ∈ fileHandlerFormat logging_fields
    ∧ fileFormat logging_fields r = none := by
  constructor
  · simp [fileHandlerFormat, fileFormatToks]
  · exact renderToks_none_of_missing (fileHandlerFormat logging_fields) (recordLookup r)
      "app_name" 's' (by simp [fileHandlerFormat, fileFormatToks]) habs

/-- Claim C10 witness: a record with no dynamic attributes makes the
file formatter fail even though extra fields were declared. -/
theorem fileFormat_app_name_witness :
    recordLookup bareRecord "app_name" = none
    ∧ fileFormat [("service", "svc_name")] bareRecord = none :=
  ⟨by decide, (fileFormat_app_name [("service", "svc_name")] bareRecord (by decide)).2⟩
